import Mathlib

/-!
Verification development for the SpiceBazaar storefront
(`src/frontend/src/App.js`).

The development shallowly embeds the client logic of the storefront:

* the Cart Store (`addToCart`, `removeFromCart`, `updateQuantity`,
  `clearCart`, `getTotalItems`, `getTotalPrice` from the `CartProvider`
  component);
* the checkout initiation handler (`handleCheckout` in `CartSidebar`);
* the payment status reconciler (`pollPaymentStatus` and the
  `CheckoutSuccess` component).

React state cells become explicit values threaded through functions; the
network becomes an oracle argument; `setTimeout`-driven recursion becomes
fuel-bounded structural recursion whose fuel is large enough to never be
exhausted on the reachable arguments.

Monetary amounts: the source stores prices as JavaScript numbers, which
are IEEE 754 binary64 floating-point values.  Where a claim is about the
cart's *structure*, prices are carried as exact rationals (they are only
moved around, never computed with).  Where a claim is about the *numeric
result* of `getTotalPrice`, the development additionally models the
host's binary64 arithmetic exactly: a double is a dyadic rational
`m * 2 ^ e`, and every addition/multiplication result is rounded to 53
significant bits with round-to-nearest, ties-to-even, exactly as IEEE 754
prescribes for the normal range (the range that covers all monetary
values occurring here; overflow and subnormals do not arise).
-/

/-! ## Cart Store data model (`CartProvider` in App.js) -/

/-- A line item of the cart, as built by `addToCart` in App.js
(fields `product_id`, `product_name`, `product_image`, `quantity`,
`price`).  Quantities are JavaScript integers, prices are carried as
exact rationals here (the cart operations never compute with them). -/
structure LineItem where
  product_id : String
  product_name : String
  product_image : String
  quantity : Int
  price : ℚ
deriving DecidableEq

/-- A catalog product as served by the backend (fields used by
`addToCart`: `id`, `name`, `image_url`, `price`). -/
structure Product where
  id : String
  name : String
  image_url : String
  price : ℚ
deriving DecidableEq

/-- App.js `addToCart(product, quantity)`: if some line item already has
this `product_id`, bump that item's quantity by `quantity` (merge);
otherwise append a fresh line item at the end. -/
def addToCart (cart : List LineItem) (product : Product) (quantity : Int) :
    List LineItem :=
  if cart.any (fun item => item.product_id = product.id) then
    cart.map (fun item =>
      if item.product_id = product.id then
        { item with quantity := item.quantity + quantity }
      else item)
  else
    cart ++ [{ product_id := product.id, product_name := product.name,
               product_image := product.image_url, quantity := quantity,
               price := product.price }]

/-- App.js `removeFromCart(productId)`: keep the items whose
`product_id` differs from `productId`. -/
def removeFromCart (cart : List LineItem) (productId : String) :
    List LineItem :=
  cart.filter (fun item => item.product_id ≠ productId)

/-- App.js `updateQuantity(productId, quantity)`: for `quantity ≤ 0`
delegate to `removeFromCart`; otherwise overwrite the quantity of the
items with this `product_id`, in place. -/
def updateQuantity (cart : List LineItem) (productId : String)
    (quantity : Int) : List LineItem :=
  if quantity ≤ 0 then removeFromCart cart productId
  else
    cart.map (fun item =>
      if item.product_id = productId then { item with quantity := quantity }
      else item)

/-- App.js `clearCart()`: the empty cart. -/
def clearCart : List LineItem := []

/-- App.js `getTotalItems()`: left fold of `total + item.quantity`
starting from `0`. -/
def getTotalItems (cart : List LineItem) : Int :=
  cart.foldl (fun total item => total + item.quantity) 0

/-- App.js `getTotalPrice()`: left fold of
`total + item.price * item.quantity` starting from `0`, here with exact
(rational) arithmetic.  The binary64 version of the same fold is
`getTotalPriceFP` below. -/
def getTotalPrice (cart : List LineItem) : ℚ :=
  cart.foldl (fun total item => total + item.price * (item.quantity : ℚ)) 0

/-- Number of line items of `cart` carrying the product id `pid`. -/
def pidCount (cart : List LineItem) (pid : String) : Nat :=
  cart.countP (fun item => item.product_id = pid)

/-- Total quantity held by the line items of `cart` carrying the product
id `pid`.  When `pidCount cart pid = 1` this is exactly the quantity of
the unique such line item. -/
def qtySum (cart : List LineItem) (pid : String) : Int :=
  ((cart.filter (fun item => item.product_id = pid)).map
    (fun item => item.quantity)).sum

/-- The cart invariant stated by the spec: at most one line item per
`product_id`. -/
def CartInv (cart : List LineItem) : Prop :=
  ∀ pid, pidCount cart pid ≤ 1

/-- Carts reachable from the initial empty cart through the Cart Store
operations of App.js. -/
inductive Reachable : List LineItem → Prop where
  | empty : Reachable []
  | add (c : List LineItem) (p : Product) (q : Int) :
      Reachable c → Reachable (addToCart c p q)
  | remove (c : List LineItem) (pid : String) :
      Reachable c → Reachable (removeFromCart c pid)
  | update (c : List LineItem) (pid : String) (q : Int) :
      Reachable c → Reachable (updateQuantity c pid q)
  | clear (c : List LineItem) : Reachable c → Reachable clearCart

/-! ## Checkout initiation (`handleCheckout` in `CartSidebar`) -/

/-- One element of the `items` array posted to `/api/checkout/session`
(built in `handleCheckout` from a cart item). -/
structure CheckoutItem where
  product_id : String
  quantity : Int
  price : ℚ
deriving DecidableEq

/-- The body posted to `/api/checkout/session`. -/
structure CheckoutRequest where
  items : List CheckoutItem
  customer_email : String
  origin_url : String
deriving DecidableEq

/-- The relevant state of the `CartSidebar` component. -/
structure SidebarState where
  cartItems : List LineItem
  customerEmail : String
  isCheckingOut : Bool
deriving DecidableEq

/-- Outcome of the `axios.post` call in `handleCheckout`: either a
response (whose `data.url` may or may not be present) or a thrown
error. -/
inductive ServiceReply where
  | success (url : Option String)
  | failure
deriving DecidableEq

/-- Everything one run of `handleCheckout` produces: the final component
state, the request sent over the network (if any), the redirect target
assigned to `window.location.href` (if any), and the `alert` message
shown (if any). -/
structure CheckoutRun where
  finalState : SidebarState
  request : Option CheckoutRequest
  redirect : Option String
  alertMsg : Option String
deriving DecidableEq

/-- App.js `handleCheckout`: JavaScript `!customerEmail` is true exactly
on the empty string, and `cartItems.length === 0` exactly on the empty
list; in that case the handler returns at once, touching nothing.
Otherwise it snapshots the cart into a `CheckoutRequest`, posts it, on
a response with a `url` navigates there, on a thrown error alerts, and
in all non-rejected paths finally resets `isCheckingOut`. -/
def handleCheckoutRun (s : SidebarState) (originUrl : String)
    (reply : ServiceReply) : CheckoutRun :=
  if s.customerEmail = "" ∨ s.cartItems = [] then
    ⟨s, none, none, none⟩
  else
    let req : CheckoutRequest :=
      ⟨s.cartItems.map (fun item =>
          ⟨item.product_id, item.quantity, item.price⟩),
        s.customerEmail, originUrl⟩
    match reply with
    | ServiceReply.success u =>
        ⟨{ s with isCheckingOut := false }, some req, u, none⟩
    | ServiceReply.failure =>
        ⟨{ s with isCheckingOut := false }, some req, none,
          some "Checkout failed. Please try again."⟩

/-! ## Payment status reconciler (`pollPaymentStatus`, `CheckoutSuccess`) -/

/-- The body of a `GET /api/checkout/status/{session_id}` response, as
read by `pollPaymentStatus` (`data.status`, `data.payment_status`). -/
structure StatusResponse where
  status : String
  payment_status : String
deriving DecidableEq

/-- Outcome of one `axios.get` status query: a response, or a thrown
transport error. -/
inductive QueryOutcome where
  | ok (resp : StatusResponse)
  | transportFailure
deriving DecidableEq

/-- The values taken by the `paymentStatus` state cell of
`CheckoutSuccess`. -/
inductive PaymentStatus where
  | checking
  | success
  | expired
  | error
  | timeout
deriving DecidableEq

/-- App.js `maxAttempts` in `pollPaymentStatus`. -/
def maxAttempts : Nat := 5

/-- App.js `pollInterval` in `pollPaymentStatus` (milliseconds). -/
def pollInterval : Nat := 2000

/-- One pass through the body of App.js `pollPaymentStatus(sessionId,
attempts)` up to the decision whether to keep polling, with the network
abstracted into `oracle` (the outcome of the status query issued with
attempt counter `attempts`).  In source order: if
`attempts >= maxAttempts` the function sets `timeout` and returns before
querying; otherwise the query runs and a thrown error yields `error`, a
`payment_status` of `"paid"` yields `success`, a `status` of `"expired"`
yields `expired` — all returning immediately (`some`) with the list of
attempt counters at which a query was issued — and any other response
means polling continues (`none`). -/
def pollOnce (oracle : Nat → QueryOutcome) (attempts : Nat) :
    Option (PaymentStatus × List Nat) :=
  if maxAttempts ≤ attempts then some (PaymentStatus.timeout, [])
  else
    match oracle attempts with
    | QueryOutcome.transportFailure => some (PaymentStatus.error, [attempts])
    | QueryOutcome.ok resp =>
      if resp.payment_status = "paid" then
        some (PaymentStatus.success, [attempts])
      else if resp.status = "expired" then
        some (PaymentStatus.expired, [attempts])
      else none

/-- The `setTimeout`-driven recursion of App.js `pollPaymentStatus`: on
a `none` verdict from `pollOnce`, poll again with the attempt counter
incremented.  The result is the final value of the `paymentStatus` cell
together with the list of attempt counters at which a status query was
issued.  `fuel` bounds the recursion depth for Lean's sake only: the
recursion consumes one fuel per retry, and every caller passes
`fuel ≥ maxAttempts - attempts`, so the fuel-exhausted branch returning
`checking` is never taken (the source recursion is bounded by the
`attempts >= maxAttempts` check in `pollOnce` in the same way). -/
def pollAux (oracle : Nat → QueryOutcome) : Nat → Nat → PaymentStatus × List Nat
  | 0, attempts =>
      match pollOnce oracle attempts with
      | some r => r
      | none => (PaymentStatus.checking, [attempts])
  | f + 1, attempts =>
      match pollOnce oracle attempts with
      | some r => r
      | none =>
        let rest := pollAux oracle f (attempts + 1)
        (rest.1, attempts :: rest.2)

/-- The reconciler as started by `CheckoutSuccess`:
`pollPaymentStatus(sessionIdParam)` begins with `attempts = 0`. -/
def pollPaymentStatus (oracle : Nat → QueryOutcome) :
    PaymentStatus × List Nat :=
  pollAux oracle maxAttempts 0

/-- Time at which each query of the returned query list is issued: the
query with attempt counter `k` runs `k * pollInterval` milliseconds
after the success page mounts (the first query is immediate, each
further one is scheduled by `setTimeout(..., pollInterval)`). -/
def queryTimes (queries : List Nat) : List Nat :=
  queries.map (fun k => k * pollInterval)

/-- The `useEffect` of `CheckoutSuccess`: read the `session_id` query
parameter; `urlParams.get` yields `null` when the parameter is absent,
and JavaScript truthiness also rejects the empty string; only a present,
non-empty value starts `pollPaymentStatus`.  `none` means the reconciler
never runs and no status query is issued. -/
def checkoutSuccessEffect (sessionIdParam : Option String)
    (oracle : Nat → QueryOutcome) : Option (PaymentStatus × List Nat) :=
  match sessionIdParam with
  | none => none
  | some s => if s = "" then none else some (pollPaymentStatus oracle)

/-- What the `CheckoutSuccess` page renders for each value of
`paymentStatus`: `some (headline, recovery)` when a branch of the JSX
matches (`recovery` is the label of the recovery button, if the branch
has one), `none` when no branch matches and the page body is empty.
The source has branches only for `checking`, `success` and `error`. -/
def checkoutSuccessView (paymentStatus : PaymentStatus) :
    Option (String × Option String) :=
  match paymentStatus with
  | PaymentStatus.checking => some ("Processing Payment...", none)
  | PaymentStatus.success => some ("Payment Successful!", some "Continue Shopping")
  | PaymentStatus.error => some ("Payment Error", some "Back to Shop")
  | PaymentStatus.expired => none
  | PaymentStatus.timeout => none

/-- State of one reconciliation run: the attempt counter together with
the value of the `paymentStatus` cell. -/
structure ReconState where
  attempts : Nat
  status : PaymentStatus
deriving DecidableEq

/-- The transition relation of `pollPaymentStatus`, one constructor per
branch of the source: budget exhaustion, a query answering paid, a query
answering expired, a query answering anything else (continue polling),
and a query throwing.  The `Bool` label records whether the transition
issued a status query. -/
inductive PollStep (oracle : Nat → QueryOutcome) :
    ReconState → Bool → ReconState → Prop where
  | budget (a : Nat) : maxAttempts ≤ a →
      PollStep oracle ⟨a, PaymentStatus.checking⟩ false
        ⟨a, PaymentStatus.timeout⟩
  | paid (a : Nat) (resp : StatusResponse) : a < maxAttempts →
      oracle a = QueryOutcome.ok resp → resp.payment_status = "paid" →
      PollStep oracle ⟨a, PaymentStatus.checking⟩ true
        ⟨a, PaymentStatus.success⟩
  | expired (a : Nat) (resp : StatusResponse) : a < maxAttempts →
      oracle a = QueryOutcome.ok resp → resp.payment_status ≠ "paid" →
      resp.status = "expired" →
      PollStep oracle ⟨a, PaymentStatus.checking⟩ true
        ⟨a, PaymentStatus.expired⟩
  | pending (a : Nat) (resp : StatusResponse) : a < maxAttempts →
      oracle a = QueryOutcome.ok resp → resp.payment_status ≠ "paid" →
      resp.status ≠ "expired" →
      PollStep oracle ⟨a, PaymentStatus.checking⟩ true
        ⟨a + 1, PaymentStatus.checking⟩
  | failed (a : Nat) : a < maxAttempts →
      oracle a = QueryOutcome.transportFailure →
      PollStep oracle ⟨a, PaymentStatus.checking⟩ true
        ⟨a, PaymentStatus.error⟩

/-! ## Binary64 model of the host arithmetic

JavaScript numbers are IEEE 754 binary64 values.  In the normal range a
binary64 value is a dyadic rational `m * 2 ^ e` with `|m| < 2 ^ 53`, and
the result of every arithmetic operation is the exact result rounded to
the nearest such value, ties to even.  The model below implements that
rounding exactly, over integers, and is used to evaluate what
`getTotalPrice` actually computes at runtime. -/

/-- A dyadic rational `m * 2 ^ e`. -/
structure Dyadic where
  m : Int
  e : Int
deriving DecidableEq

/-- The rational value of a dyadic. -/
def Dyadic.toRat (x : Dyadic) : ℚ :=
  if 0 ≤ x.e then (x.m : ℚ) * 2 ^ x.e.toNat else (x.m : ℚ) / 2 ^ (-x.e).toNat

/-- Floor of the base-2 logarithm of a positive natural, by fuel-bounded
halving; fuel `128` covers every natural below `2 ^ 128`, far beyond the
magnitudes reachable in this development. -/
def log2floorAux : Nat → Nat → Nat
  | 0, _ => 0
  | f + 1, n => if 2 ≤ n then log2floorAux f (n / 2) + 1 else 0

/-- Floor of the base-2 logarithm of a positive natural. -/
def log2floor (n : Nat) : Nat := log2floorAux 128 n

/-- Ceiling of the base-2 logarithm of a positive natural: the least `k`
with `n ≤ 2 ^ k`. -/
def clog2 (n : Nat) : Nat := if n ≤ 1 then 0 else log2floor (n - 1) + 1

/-- Floor of the base-2 logarithm of the positive rational `a / b`
(both `a` and `b` positive): for `a ≥ b` this is `log2floor (a / b)`,
and for `a < b` it is `-⌈log2 (b / a)⌉` computed as `clog2 ⌈b / a⌉`. -/
def ratLog2floor (a b : Nat) : Int :=
  if b ≤ a then (log2floor (a / b) : Int) else -(clog2 ((b + a - 1) / a) : Int)

/-- Round the positive rational `a / b` to 53 significant bits, round to
nearest, ties to even: the mantissa is the nearest integer to
`(a / b) / 2 ^ e` where `e` places the leading bit at position 52. -/
def roundPosRat (a b : Nat) : Dyadic :=
  let e : Int := ratLog2floor a b - 52
  let nd : Nat × Nat :=
    if 0 ≤ e then (a, b * 2 ^ e.toNat) else (a * 2 ^ (-e).toNat, b)
  let q := nd.1 / nd.2
  let r := nd.1 % nd.2
  let m :=
    if 2 * r < nd.2 then q
    else if nd.2 < 2 * r then q + 1
    else if q % 2 = 0 then q else q + 1
  ⟨(m : Int), e⟩

/-- Round the rational `n / d` (with `d` positive) to the nearest
binary64 value, ties to even.  This is the value a JavaScript engine
stores for a decimal literal `n / d` and the rounding it applies to
every arithmetic result (normal range). -/
def roundRat (n : Int) (d : Nat) : Dyadic :=
  if n = 0 then ⟨0, 0⟩
  else if 0 < n then roundPosRat n.toNat d
  else
    let p := roundPosRat (-n).toNat d
    ⟨-p.m, p.e⟩

/-- A dyadic as an exact fraction `(numerator, positive denominator)`. -/
def Dyadic.toFrac (x : Dyadic) : Int × Nat :=
  if 0 ≤ x.e then (x.m * 2 ^ x.e.toNat, 1) else (x.m, 2 ^ (-x.e).toNat)

/-- Binary64 addition: exact sum, then rounding. -/
def flAdd (x y : Dyadic) : Dyadic :=
  let fx := x.toFrac
  let fy := y.toFrac
  roundRat (fx.1 * (fy.2 : Int) + fy.1 * (fx.2 : Int)) (fx.2 * fy.2)

/-- Binary64 multiplication by an integer-valued double (quantities in
the cart are integers, exactly representable): exact product, then
rounding. -/
def flMulInt (x : Dyadic) (k : Int) : Dyadic :=
  let fx := x.toFrac
  roundRat (fx.1 * k) fx.2

/-- A cart line item as it exists at runtime: the stored price is the
binary64 value parsed from the catalog JSON. -/
structure FPItem where
  price : Dyadic
  quantity : Int
deriving DecidableEq

/-- App.js `getTotalPrice()` under the host's binary64 semantics: the
same left fold `total + item.price * item.quantity`, with every `*` and
`+` rounding its exact result to binary64 as the engine does. -/
def getTotalPriceFP (cart : List FPItem) : Dyadic :=
  cart.foldl (fun total item => flAdd total (flMulInt item.price item.quantity))
    ⟨0, 0⟩

/-! ## Cart Store lemmas -/

/-- Mapping a function that leaves `product_id` untouched does not change
the per-product item count. -/
theorem pidCount_map_of_preserved (g : LineItem → LineItem)
    (hg : ∀ it, (g it).product_id = it.product_id) (c : List LineItem)
    (pid : String) : pidCount (c.map g) pid = pidCount c pid := by
  induction c with
  | nil => rfl
  | cons a t ih =>
      simp only [pidCount, List.map_cons, List.countP_cons] at *
      rw [ih, hg a]

/-- The quantity-bumping map of `addToCart` preserves `product_id`. -/
theorem bump_preserves_pid (pid : String) (q : Int) (it : LineItem) :
    ((if it.product_id = pid then { it with quantity := it.quantity + q }
      else it) : LineItem).product_id = it.product_id := by
  split <;> rfl

/-- The quantity-setting map of `updateQuantity` preserves `product_id`. -/
theorem setqty_preserves_pid (pid : String) (q : Int) (it : LineItem) :
    ((if it.product_id = pid then { it with quantity := q }
      else it) : LineItem).product_id = it.product_id := by
  split <;> rfl

/-- Per-product item count of a one-element append. -/
theorem pidCount_append_single (c : List LineItem) (x : LineItem)
    (pid : String) :
    pidCount (c ++ [x]) pid
      = pidCount c pid + (if x.product_id = pid then 1 else 0) := by
  simp [pidCount, List.countP_append, List.countP_cons]

/-- The `cart.any` guard of `addToCart` is false exactly when the cart
holds no item with the product's id. -/
theorem any_eq_false_iff_pidCount_zero (c : List LineItem) (pid : String) :
    (c.any (fun item => item.product_id = pid) = false)
      ↔ pidCount c pid = 0 := by
  rw [List.any_eq_false]
  unfold pidCount
  rw [List.countP_eq_zero]

/-- Quantity total at `pid` after bumping every `pid` item by `q`:
each of the `pidCount c pid` matching items contributes `q` more. -/
theorem qtySum_map_bump (c : List LineItem) (pid : String) (q : Int) :
    qtySum (c.map (fun it =>
        if it.product_id = pid then { it with quantity := it.quantity + q }
        else it)) pid
      = qtySum c pid + (pidCount c pid : Int) * q := by
  induction c with
  | nil => simp [qtySum, pidCount]
  | cons a t ih =>
      unfold qtySum pidCount at ih ⊢
      by_cases h : a.product_id = pid
      · simp only [List.map_cons, if_pos h, List.filter_cons, List.countP_cons, h]
        simp only [decide_True, if_true, List.map_cons, List.sum_cons, ih]
        push_cast
        ring
      · simp only [List.map_cons, if_neg h, List.filter_cons, List.countP_cons,
          decide_eq_true_eq, if_neg h, ih]
        push_cast
        ring

/-- Quantity total at `pid` of a one-element append. -/
theorem qtySum_append_single (c : List LineItem) (x : LineItem)
    (pid : String) :
    qtySum (c ++ [x]) pid
      = qtySum c pid + (if x.product_id = pid then x.quantity else 0) := by
  by_cases h : x.product_id = pid <;>
    simp [qtySum, List.filter_append, List.filter_cons, h]

/-- Per-product count after `addToCart`, at the added product's id: a
fresh item appears only when none was present, so the count becomes
`max 1` of the old count. -/
theorem addToCart_pidCount_self (c : List LineItem) (p : Product) (q : Int) :
    pidCount (addToCart c p q) p.id = max 1 (pidCount c p.id) := by
  unfold addToCart
  split
  · next h =>
      rw [pidCount_map_of_preserved _ (bump_preserves_pid p.id q)]
      have hpos : 0 < pidCount c p.id := by
        unfold pidCount
        rw [List.countP_pos_iff]
        exact List.any_eq_true.mp h
      omega
  · next h =>
      have h0 : pidCount c p.id = 0 :=
        (any_eq_false_iff_pidCount_zero c p.id).mp (by simpa using h)
      rw [pidCount_append_single, h0]
      simp

/-- Per-product count after `addToCart`, at any other product id:
unchanged. -/
theorem addToCart_pidCount_other (c : List LineItem) (p : Product) (q : Int)
    (pid : String) (hne : pid ≠ p.id) :
    pidCount (addToCart c p q) pid = pidCount c pid := by
  unfold addToCart
  split
  · exact pidCount_map_of_preserved _ (bump_preserves_pid p.id q) c pid
  · rw [pidCount_append_single]
    have hne' : ¬(p.id = pid) := fun h => hne (Eq.symm h)
    simp [hne']

/-- Quantity total after `addToCart` at the added product's id: with at
most one matching item present, the total grows by exactly `q`. -/
theorem addToCart_qtySum_self (c : List LineItem) (p : Product) (q : Int)
    (hinv : pidCount c p.id ≤ 1) :
    qtySum (addToCart c p q) p.id = qtySum c p.id + q := by
  unfold addToCart
  split
  · next h =>
      have hpos : 0 < pidCount c p.id := by
        unfold pidCount
        rw [List.countP_pos_iff]
        exact List.any_eq_true.mp h
      have h1 : pidCount c p.id = 1 := by omega
      rw [qtySum_map_bump, h1]
      push_cast
      ring
  · next h =>
      rw [qtySum_append_single]
      simp

/-- `addToCart` preserves the at-most-one-item-per-product invariant. -/
theorem addToCart_CartInv (c : List LineItem) (p : Product) (q : Int)
    (hinv : CartInv c) : CartInv (addToCart c p q) := by
  intro pid
  by_cases hpi : pid = p.id
  · subst hpi
    rw [addToCart_pidCount_self]
    have := hinv p.id
    omega
  · rw [addToCart_pidCount_other c p q pid hpi]
    exact hinv pid

/-- `removeFromCart` preserves the invariant (it only drops items). -/
theorem removeFromCart_CartInv (c : List LineItem) (pid : String)
    (hinv : CartInv c) : CartInv (removeFromCart c pid) := by
  intro pid'
  calc pidCount (removeFromCart c pid) pid'
      ≤ pidCount c pid' := List.Sublist.countP_le _ (List.filter_sublist c)
    _ ≤ 1 := hinv pid'

/-- `updateQuantity` preserves the invariant. -/
theorem updateQuantity_CartInv (c : List LineItem) (pid : String) (q : Int)
    (hinv : CartInv c) : CartInv (updateQuantity c pid q) := by
  unfold updateQuantity
  split
  · exact removeFromCart_CartInv c pid hinv
  · intro pid'
    rw [pidCount_map_of_preserved _ (setqty_preserves_pid pid q)]
    exact hinv pid'

/-- Every cart reachable through the Cart Store operations satisfies the
at-most-one-item-per-product invariant. -/
theorem reachable_CartInv (c : List LineItem) (h : Reachable c) :
    CartInv c := by
  induction h with
  | empty => intro pid; simp [pidCount]
  | add c p q _ ih => exact addToCart_CartInv c p q ih
  | remove c pid _ ih => exact removeFromCart_CartInv c pid ih
  | update c pid q _ ih => exact updateQuantity_CartInv c pid q ih
  | clear c _ _ => intro pid; simp [clearCart, pidCount]

/-- Folding a sequence of `addToCart` calls for the same product over a
cart that already holds exactly one item for it keeps exactly one item
for it and accumulates the quantities. -/
theorem foldl_addToCart_acc (p : Product) (qs : List Int) :
    ∀ c : List LineItem, CartInv c → pidCount c p.id = 1 →
      CartInv (qs.foldl (fun acc x => addToCart acc p x) c) ∧
      pidCount (qs.foldl (fun acc x => addToCart acc p x) c) p.id = 1 ∧
      qtySum (qs.foldl (fun acc x => addToCart acc p x) c) p.id
        = qtySum c p.id + qs.sum := by
  induction qs with
  | nil => intro c hc h1; simpa using ⟨hc, h1⟩
  | cons x xs ih =>
      intro c hc h1
      have hc' := addToCart_CartInv c p x hc
      have h1' : pidCount (addToCart c p x) p.id = 1 := by
        rw [addToCart_pidCount_self, h1]
        omega
      have hsum : qtySum (addToCart c p x) p.id = qtySum c p.id + x :=
        addToCart_qtySum_self c p x (by rw [h1])
      rcases ih (addToCart c p x) hc' h1' with ⟨ha, hb, hcq⟩
      refine ⟨ha, hb, ?_⟩
      simp only [List.foldl_cons, List.sum_cons]
      rw [hcq, hsum]
      ring


/-! ## Reconciler lemmas -/

/-- Budget exhausted: `pollOnce` sets `timeout` without issuing a
query. -/
theorem pollOnce_budget (oracle : Nat → QueryOutcome) (a : Nat)
    (h : maxAttempts ≤ a) :
    pollOnce oracle a = some (PaymentStatus.timeout, []) := by
  unfold pollOnce
  rw [if_pos h]

/-- Transport failure: `pollOnce` sets `error`, having issued exactly
the one failing query. -/
theorem pollOnce_failed (oracle : Nat → QueryOutcome) (a : Nat)
    (ha : a < maxAttempts) (hq : oracle a = QueryOutcome.transportFailure) :
    pollOnce oracle a = some (PaymentStatus.error, [a]) := by
  unfold pollOnce
  rw [if_neg (by omega), hq]

/-- Paid response: `pollOnce` sets `success`. -/
theorem pollOnce_paid (oracle : Nat → QueryOutcome) (a : Nat)
    (resp : StatusResponse) (ha : a < maxAttempts)
    (hq : oracle a = QueryOutcome.ok resp)
    (hp : resp.payment_status = "paid") :
    pollOnce oracle a = some (PaymentStatus.success, [a]) := by
  unfold pollOnce
  rw [if_neg (by omega), hq]
  simp only [if_pos hp]

/-- Expired response: `pollOnce` sets `expired`. -/
theorem pollOnce_expired (oracle : Nat → QueryOutcome) (a : Nat)
    (resp : StatusResponse) (ha : a < maxAttempts)
    (hq : oracle a = QueryOutcome.ok resp)
    (hp : resp.payment_status ≠ "paid") (hs : resp.status = "expired") :
    pollOnce oracle a = some (PaymentStatus.expired, [a]) := by
  unfold pollOnce
  rw [if_neg (by omega), hq]
  simp only [if_neg hp, if_pos hs]

/-- Open/unpaid response: `pollOnce` keeps polling. -/
theorem pollOnce_pending (oracle : Nat → QueryOutcome) (a : Nat)
    (resp : StatusResponse) (ha : a < maxAttempts)
    (hq : oracle a = QueryOutcome.ok resp)
    (hp : resp.payment_status ≠ "paid") (hs : resp.status ≠ "expired") :
    pollOnce oracle a = none := by
  unfold pollOnce
  rw [if_neg (by omega), hq]
  simp only [if_neg hp, if_neg hs]

/-- A terminal verdict of `pollOnce` is the result of `pollAux`,
whatever fuel remains. -/
theorem pollAux_some (oracle : Nat → QueryOutcome) (fuel a : Nat)
    (r : PaymentStatus × List Nat) (h : pollOnce oracle a = some r) :
    pollAux oracle fuel a = r := by
  cases fuel <;> (conv_lhs => unfold pollAux) <;> rw [h]

/-- On an open/unpaid verdict, `pollAux` issues the query at the current
attempt counter and recurses with the counter incremented. -/
theorem pollAux_succ_none (oracle : Nat → QueryOutcome) (f a : Nat)
    (h : pollOnce oracle a = none) :
    pollAux oracle (f + 1) a
      = ((pollAux oracle f (a + 1)).1, a :: (pollAux oracle f (a + 1)).2) := by
  conv_lhs => unfold pollAux
  rw [h]

/-- Every `pollAux` run follows the transition relation `PollStep`: from
`⟨a, checking⟩` the recursion's visited states form a `PollStep` chain
ending at the returned status (at some final attempt counter).  This
ties the functional embedding of `pollPaymentStatus` to the transition
relation used to state terminality. -/
theorem pollAux_follows_steps (oracle : Nat → QueryOutcome) :
    ∀ fuel a : Nat, ∃ a' : Nat,
      Relation.ReflTransGen (fun s s' => ∃ q, PollStep oracle s q s')
        ⟨a, PaymentStatus.checking⟩ ⟨a', (pollAux oracle fuel a).1⟩ := by
  intro fuel
  induction fuel with
  | zero =>
      intro a
      by_cases hb : maxAttempts ≤ a
      · refine ⟨a, ?_⟩
        rw [pollAux_some oracle 0 a _ (pollOnce_budget oracle a hb)]
        exact Relation.ReflTransGen.single ⟨false, PollStep.budget a hb⟩
      · rcases hor : oracle a with resp | _
        · by_cases hp : resp.payment_status = "paid"
          · refine ⟨a, ?_⟩
            rw [pollAux_some oracle 0 a _
              (pollOnce_paid oracle a resp (by omega) hor hp)]
            exact Relation.ReflTransGen.single
              ⟨true, PollStep.paid a resp (by omega) hor hp⟩
          · by_cases hs : resp.status = "expired"
            · refine ⟨a, ?_⟩
              rw [pollAux_some oracle 0 a _
                (pollOnce_expired oracle a resp (by omega) hor hp hs)]
              exact Relation.ReflTransGen.single
                ⟨true, PollStep.expired a resp (by omega) hor hp hs⟩
            · refine ⟨a, ?_⟩
              have hnone := pollOnce_pending oracle a resp (by omega) hor hp hs
              have : pollAux oracle 0 a = (PaymentStatus.checking, [a]) := by
                conv_lhs => unfold pollAux
                rw [hnone]
              rw [this]
        · refine ⟨a, ?_⟩
          rw [pollAux_some oracle 0 a _
            (pollOnce_failed oracle a (by omega) hor)]
          exact Relation.ReflTransGen.single
            ⟨true, PollStep.failed a (by omega) hor⟩
  | succ f ih =>
      intro a
      by_cases hb : maxAttempts ≤ a
      · refine ⟨a, ?_⟩
        rw [pollAux_some oracle (f + 1) a _ (pollOnce_budget oracle a hb)]
        exact Relation.ReflTransGen.single ⟨false, PollStep.budget a hb⟩
      · rcases hor : oracle a with resp | _
        · by_cases hp : resp.payment_status = "paid"
          · refine ⟨a, ?_⟩
            rw [pollAux_some oracle (f + 1) a _
              (pollOnce_paid oracle a resp (by omega) hor hp)]
            exact Relation.ReflTransGen.single
              ⟨true, PollStep.paid a resp (by omega) hor hp⟩
          · by_cases hs : resp.status = "expired"
            · refine ⟨a, ?_⟩
              rw [pollAux_some oracle (f + 1) a _
                (pollOnce_expired oracle a resp (by omega) hor hp hs)]
              exact Relation.ReflTransGen.single
                ⟨true, PollStep.expired a resp (by omega) hor hp hs⟩
            · rcases ih (a + 1) with ⟨a', ha'⟩
              refine ⟨a', ?_⟩
              rw [pollAux_succ_none oracle f a
                (pollOnce_pending oracle a resp (by omega) hor hp hs)]
              exact Relation.ReflTransGen.head
                ⟨true, PollStep.pending a resp (by omega) hor hp hs⟩ ha'
        · refine ⟨a, ?_⟩
          rw [pollAux_some oracle (f + 1) a _
            (pollOnce_failed oracle a (by omega) hor)]
          exact Relation.ReflTransGen.single
            ⟨true, PollStep.failed a (by omega) hor⟩

/-! ## Claim theorems -/

/-- C1 (amended): `getTotalPrice` equals the sum over all line items of
`unit_price × quantity` when the fold's arithmetic is exact (rational);
the implementation, however, runs this fold on the host's binary64
floating-point numbers, with no fixed-point or decimal representation,
so the computed total can differ from the exact sum (see
`getTotalPrice_float_cex`). -/
theorem getTotalPrice_eq_sum (cart : List LineItem) :
    getTotalPrice cart
      = (cart.map (fun item => item.price * (item.quantity : ℚ))).sum := by
  suffices h : ∀ a : ℚ,
      cart.foldl (fun total item => total + item.price * (item.quantity : ℚ)) a
        = a + (cart.map (fun item => item.price * (item.quantity : ℚ))).sum by
    simpa [getTotalPrice] using h 0
  induction cart with
  | nil => simp
  | cons x t ih =>
      intro a
      simp only [List.foldl_cons, List.map_cons, List.sum_cons, ih]
      ring

/-- C1 counterexample: the claim that `totalPrice()` is computed with
decimal-safe arithmetic and accumulates no binary floating-point
rounding error is false.  A catalog price with decimal value `0.1` is
stored as the binary64 value `7205759403792794 * 2 ^ (-56)` (first
conjunct: that is what rounding `1/10` to binary64 gives).  For a cart
holding that single product with quantity 3, the value `getTotalPrice`
computes under the host's binary64 arithmetic differs both from the
exact decimal sum `0.1 × 3 = 0.3` (second conjunct) and from the exact
product `stored_price × 3` (third conjunct): the computed total is
`0.30000000000000004…`, which is off at the seventeenth decimal and so
not exact to the cent in the claimed sense of carrying no
floating-point error. -/
theorem getTotalPrice_float_cex :
    roundRat 1 10 = ⟨7205759403792794, -56⟩ ∧
    (getTotalPriceFP [⟨⟨7205759403792794, -56⟩, 3⟩]).toRat
      ≠ (1 / 10 : ℚ) * 3 ∧
    (getTotalPriceFP [⟨⟨7205759403792794, -56⟩, 3⟩]).toRat
      ≠ (Dyadic.mk 7205759403792794 (-56)).toRat * 3 := by
  have hval : getTotalPriceFP [⟨⟨7205759403792794, -56⟩, 3⟩]
      = ⟨5404319552844596, -54⟩ := by decide
  refine ⟨by decide, ?_, ?_⟩
  · rw [hval]
    simp [Dyadic.toRat]
    norm_num
  · rw [hval]
    simp [Dyadic.toRat]
    norm_num

/-- C2 (code bug evidence): the `CheckoutSuccess` page renders no
message and no recovery action at all for the terminal `timeout` and
`expired` states (first two conjuncts), although the `timeout` state is
reachable — a session that stays open/unpaid on every query drives the
reconciler to `timeout` (third conjunct).  The validation rejection of
`handleCheckout` (empty email here) likewise produces no alert (fourth
conjunct).  So these failures are silently swallowed, contradicting the
claim and the code's own test log, which records that the success page
handles the timeout scenario. -/
theorem timeout_and_expired_render_nothing :
    checkoutSuccessView PaymentStatus.timeout = none ∧
    checkoutSuccessView PaymentStatus.expired = none ∧
    (pollPaymentStatus (fun _ => QueryOutcome.ok ⟨"open", "unpaid"⟩)).1
      = PaymentStatus.timeout ∧
    (handleCheckoutRun ⟨[], "", false⟩ "http://localhost"
        ServiceReply.failure).alertMsg = none := by
  refine ⟨rfl, rfl, by decide, rfl⟩

/-- C3: against a session whose status query always answers with an
open/unpaid response (never paid, never expired, never failing), the
reconciler issues exactly `maxAttempts = 5` status queries — at attempt
counters 0 through 4, hence at times 0, 2000, …, 8000 ms, consecutive
queries spaced by exactly the fixed `pollInterval = 2000` ms delay — and
then reaches the terminal `timeout` state without issuing a further
query (the query list ends there). -/
theorem reconciler_timeout_after_five (oracle : Nat → QueryOutcome)
    (resp : Nat → StatusResponse)
    (hok : ∀ n, oracle n = QueryOutcome.ok (resp n))
    (hpaid : ∀ n, (resp n).payment_status ≠ "paid")
    (hexp : ∀ n, (resp n).status ≠ "expired") :
    pollPaymentStatus oracle = (PaymentStatus.timeout, [0, 1, 2, 3, 4]) ∧
    (pollPaymentStatus oracle).2.length = maxAttempts ∧
    List.Chain' (fun t t' => t' = t + pollInterval)
      (queryTimes (pollPaymentStatus oracle).2) := by
  have hp : ∀ n, n < maxAttempts → pollOnce oracle n = none := fun n hn =>
    pollOnce_pending oracle n (resp n) hn (hok n) (hpaid n) (hexp n)
  have h5 : pollAux oracle 0 5 = (PaymentStatus.timeout, []) :=
    pollAux_some oracle 0 5 _ (pollOnce_budget oracle 5 (by decide))
  have h4 : pollAux oracle 1 4 = (PaymentStatus.timeout, [4]) := by
    have h := pollAux_succ_none oracle 0 4 (hp 4 (by decide))
    norm_num at h
    rw [h5] at h
    simpa using h
  have h3 : pollAux oracle 2 3 = (PaymentStatus.timeout, [3, 4]) := by
    have h := pollAux_succ_none oracle 1 3 (hp 3 (by decide))
    norm_num at h
    rw [h4] at h
    simpa using h
  have h2 : pollAux oracle 3 2 = (PaymentStatus.timeout, [2, 3, 4]) := by
    have h := pollAux_succ_none oracle 2 2 (hp 2 (by decide))
    norm_num at h
    rw [h3] at h
    simpa using h
  have h1 : pollAux oracle 4 1 = (PaymentStatus.timeout, [1, 2, 3, 4]) := by
    have h := pollAux_succ_none oracle 3 1 (hp 1 (by decide))
    norm_num at h
    rw [h2] at h
    simpa using h
  have h0 : pollAux oracle 5 0 = (PaymentStatus.timeout, [0, 1, 2, 3, 4]) := by
    have h := pollAux_succ_none oracle 4 0 (hp 0 (by decide))
    norm_num at h
    rw [h1] at h
    simpa using h
  have heq : pollPaymentStatus oracle
      = (PaymentStatus.timeout, [0, 1, 2, 3, 4]) := by
    unfold pollPaymentStatus
    have hm : maxAttempts = 5 := rfl
    rw [hm]
    exact h0
  refine ⟨heq, by rw [heq]; rfl, ?_⟩
  rw [heq]
  norm_num [queryTimes, pollInterval, List.chain'_cons]

/-- C3 witness: the constant open/unpaid session drives the reconciler
to `timeout` after exactly the five queries at counters 0–4, spaced by
the fixed 2000 ms delay. -/
theorem reconciler_timeout_after_five_witness :
    pollPaymentStatus (fun _ => QueryOutcome.ok ⟨"open", "unpaid"⟩)
      = (PaymentStatus.timeout, [0, 1, 2, 3, 4]) ∧
    (pollPaymentStatus (fun _ => QueryOutcome.ok ⟨"open", "unpaid"⟩)).2.length
      = maxAttempts ∧
    List.Chain' (fun t t' => t' = t + pollInterval)
      (queryTimes
        (pollPaymentStatus (fun _ => QueryOutcome.ok ⟨"open", "unpaid"⟩)).2) :=
  reconciler_timeout_after_five (fun _ => QueryOutcome.ok ⟨"open", "unpaid"⟩)
    (fun _ => ⟨"open", "unpaid"⟩) (fun _ => rfl)
    (fun _ => (by decide : ("unpaid" : String) ≠ "paid"))
    (fun _ => (by decide : ("open" : String) ≠ "expired"))

/-- C4: if the status query at any attempt counter `a` (within the
budget) fails with a transport error, the reconciler ends in the
terminal `error` state with `[a]` as its entire remaining query list:
the failing query is the only one issued from that point, so the
failure is never retried and never recycled through the remaining
attempt budget (the result does not depend on the remaining fuel). -/
theorem reconciler_error_on_transport (oracle : Nat → QueryOutcome)
    (fuel a : Nat) (ha : a < maxAttempts)
    (hq : oracle a = QueryOutcome.transportFailure) :
    pollAux oracle fuel a = (PaymentStatus.error, [a]) :=
  pollAux_some oracle fuel a _ (pollOnce_failed oracle a ha hq)

/-- C4 witness: a transport failure on the very first attempt ends the
run in `error` after that single query. -/
theorem reconciler_error_on_transport_witness :
    pollAux (fun _ => QueryOutcome.transportFailure) maxAttempts 0
      = (PaymentStatus.error, [0]) :=
  reconciler_error_on_transport (fun _ => QueryOutcome.transportFailure)
    maxAttempts 0 (by decide) rfl

/-- C7: the states `success`, `expired`, `error` and `timeout` are all
terminal: a state of the reconciler whose status is any of them admits
no `PollStep` transition at all — in particular no transition labelled
as issuing a status query — so once reached it is never left and no
further query is issued for the session (`pollAux_follows_steps` shows
the polling function's runs follow exactly this relation). -/
theorem terminal_no_step (oracle : Nat → QueryOutcome) (s : ReconState)
    (h : s.status = PaymentStatus.success ∨ s.status = PaymentStatus.expired
      ∨ s.status = PaymentStatus.error ∨ s.status = PaymentStatus.timeout)
    (q : Bool) (s' : ReconState) : ¬ PollStep oracle s q s' := by
  intro hstep
  cases hstep <;> simp at h

/-- C7 witness: a concrete terminal state admits no step. -/
theorem terminal_no_step_witness :
    ¬ PollStep (fun _ => QueryOutcome.transportFailure)
      ⟨2, PaymentStatus.success⟩ true ⟨3, PaymentStatus.checking⟩ :=
  terminal_no_step (fun _ => QueryOutcome.transportFailure)
    ⟨2, PaymentStatus.success⟩ (by decide) true ⟨3, PaymentStatus.checking⟩

/-- C8: when the success page's entry parameters carry no `session_id`
query parameter (`urlParams.get` returns null), the reconciler is never
invoked: the effect produces no reconciliation run at all, hence no
status query and no state machine. -/
theorem no_session_id_no_reconciler (oracle : Nat → QueryOutcome) :
    checkoutSuccessEffect none oracle = none := rfl

/-- C5 counterexample: the claim quantifies over sequences of positive
adds "applied to any cart", and fails on carts that already involve the
product.  First conjunct: starting from a cart already holding product
"A" with quantity 1, a single add of quantity 1 (a sequence whose
quantities sum to 1) leaves the unique "A" line item with quantity 2,
not 1.  Second and third conjuncts: on a cart holding two "A" line
items (not reachable, but "any cart" admits it), an add leaves two "A"
items, not exactly one. -/
theorem addToCart_any_cart_cex :
    (pidCount (addToCart [⟨"A", "Chili", "img", 1, 5⟩]
        ⟨"A", "Chili", "img", 5⟩ 1) "A" = 1 ∧
      qtySum (addToCart [⟨"A", "Chili", "img", 1, 5⟩]
        ⟨"A", "Chili", "img", 5⟩ 1) "A" = 2 ∧ (2 : Int) ≠ 1) ∧
    pidCount (addToCart [⟨"A", "Chili", "img", 3, 5⟩, ⟨"A", "Chili", "img", 4, 5⟩]
        ⟨"A", "Chili", "img", 5⟩ 1) "A" = 2 := by
  refine ⟨⟨by decide, by decide, by decide⟩, by decide⟩

/-- C5 (amended): for every nonempty sequence of positive adds of the
same product applied to a cart with at most one line item per product
id, the resulting cart holds exactly one line item for that product id,
and the total quantity at that id (`qtySum`, which for a unique item is
that item's quantity) equals the cart's prior quantity at that id plus
the sum of all added quantities; and every cart reachable through the
Cart Store operations satisfies the at-most-one-item-per-product-id
invariant. -/
theorem addToCart_merge_invariant :
    (∀ (cart : List LineItem) (p : Product) (q : Int) (qs : List Int),
        CartInv cart → 0 < q → (∀ x ∈ qs, 0 < x) →
        pidCount ((q :: qs).foldl (fun acc x => addToCart acc p x) cart) p.id
            = 1 ∧
        qtySum ((q :: qs).foldl (fun acc x => addToCart acc p x) cart) p.id
            = qtySum cart p.id + (q :: qs).sum) ∧
    (∀ c, Reachable c → CartInv c) := by
  constructor
  · intro cart p q qs hinv hq hqs
    have hc1 := addToCart_CartInv cart p q hinv
    have h1 : pidCount (addToCart cart p q) p.id = 1 := by
      rw [addToCart_pidCount_self]
      have := hinv p.id
      omega
    have hsum1 := addToCart_qtySum_self cart p q (hinv p.id)
    rcases foldl_addToCart_acc p qs (addToCart cart p q) hc1 h1 with
      ⟨_, hcount, hsum⟩
    simp only [List.foldl_cons, List.sum_cons]
    refine ⟨hcount, ?_⟩
    rw [hsum, hsum1]
    ring
  · exact reachable_CartInv

/-- C5 witness: two adds of product "A" (quantities 2 then 3) on the
empty cart leave exactly one "A" line item of quantity 5; the empty cart
satisfies the invariant. -/
theorem addToCart_merge_invariant_witness :
    (pidCount ((2 :: [3] : List Int).foldl
        (fun acc x => addToCart acc ⟨"A", "Chili", "img", 5⟩ x) [])
        (Product.mk "A" "Chili" "img" 5).id = 1 ∧
      qtySum ((2 :: [3] : List Int).foldl
        (fun acc x => addToCart acc ⟨"A", "Chili", "img", 5⟩ x) [])
        (Product.mk "A" "Chili" "img" 5).id
          = qtySum [] (Product.mk "A" "Chili" "img" 5).id
            + (2 :: [3] : List Int).sum) ∧
    CartInv [] :=
  ⟨addToCart_merge_invariant.1 [] ⟨"A", "Chili", "img", 5⟩ 2 [3]
      (fun pid => by simp [pidCount]) (by decide) (by decide),
    addToCart_merge_invariant.2 [] Reachable.empty⟩

/-- C6: for every cart containing the product id, `updateQuantity` with
`q ≤ 0` produces exactly the same cart as `removeFromCart`; and with
`q ≥ 1` it maps each position of the cart to the same item, except that
an item carrying the product id gets its quantity replaced by `q` — so
every item keeps its position, no item is added or dropped, and only the
matching item's quantity field changes. -/
theorem updateQuantity_spec (cart : List LineItem) (pid : String)
    (hmem : pid ∈ cart.map (fun item => item.product_id)) :
    (∀ q : Int, q ≤ 0 →
        updateQuantity cart pid q = removeFromCart cart pid) ∧
    (∀ q : Int, 1 ≤ q → ∀ i : Nat,
        (updateQuantity cart pid q)[i]?
          = (cart[i]?).map (fun item =>
              if item.product_id = pid then { item with quantity := q }
              else item)) := by
  constructor
  · intro q hq
    unfold updateQuantity
    rw [if_pos hq]
  · intro q hq i
    unfold updateQuantity
    rw [if_neg (by omega)]
    exact List.getElem?_map _ cart i

/-- C6 witness: on a one-item cart containing "A", setting quantity 0
removes the item, and setting quantity 7 rewrites position 0 in
place. -/
theorem updateQuantity_spec_witness :
    (updateQuantity [⟨"A", "Chili", "img", 1, 5⟩] "A" 0
        = removeFromCart [⟨"A", "Chili", "img", 1, 5⟩] "A") ∧
    (updateQuantity [⟨"A", "Chili", "img", 1, 5⟩] "A" 7)[0]?
      = (([⟨"A", "Chili", "img", 1, 5⟩] : List LineItem)[0]?).map
          (fun item =>
            if item.product_id = "A" then { item with quantity := 7 }
            else item) :=
  ⟨(updateQuantity_spec [⟨"A", "Chili", "img", 1, 5⟩] "A" (by decide)).1 0
      (by decide),
    (updateQuantity_spec [⟨"A", "Chili", "img", 1, 5⟩] "A" (by decide)).2 7
      (by decide) 0⟩

/-- C9: a checkout invoked with an empty customer email or an empty
cart is rejected before any network call: no request is posted to the
session service, nothing is redirected, and the component state is left
untouched. -/
theorem checkout_rejected_before_network (s : SidebarState)
    (originUrl : String) (reply : ServiceReply)
    (h : s.customerEmail = "" ∨ s.cartItems = []) :
    (handleCheckoutRun s originUrl reply).request = none ∧
    (handleCheckoutRun s originUrl reply).redirect = none ∧
    (handleCheckoutRun s originUrl reply).finalState = s := by
  unfold handleCheckoutRun
  rw [if_pos h]
  exact ⟨rfl, rfl, rfl⟩

/-- C9 witness: an empty cart (with a nonempty email) sends nothing. -/
theorem checkout_rejected_before_network_witness :
    (handleCheckoutRun ⟨[], "user@spice.test", false⟩ "http://localhost"
        ServiceReply.failure).request = none ∧
    (handleCheckoutRun ⟨[], "user@spice.test", false⟩ "http://localhost"
        ServiceReply.failure).redirect = none ∧
    (handleCheckoutRun ⟨[], "user@spice.test", false⟩ "http://localhost"
        ServiceReply.failure).finalState = ⟨[], "user@spice.test", false⟩ :=
  checkout_rejected_before_network ⟨[], "user@spice.test", false⟩
    "http://localhost" ServiceReply.failure (Or.inr rfl)

/-- C10: the checkout flow never mutates the cart: whatever the state
and whatever the outcome (validation rejection, service failure, or
session creation with redirect), the cart's line items — and with them
every quantity and price — are the same lists before and after the run;
in particular the checkout flow never clears the cart. -/
theorem checkout_preserves_cart (s : SidebarState) (originUrl : String)
    (reply : ServiceReply) :
    (handleCheckoutRun s originUrl reply).finalState.cartItems = s.cartItems
      ∧ (handleCheckoutRun s originUrl reply).finalState.customerEmail
        = s.customerEmail := by
  unfold handleCheckoutRun
  split
  · exact ⟨rfl, rfl⟩
  · cases reply <;> exact ⟨rfl, rfl⟩
